import Mathlib

/-!
Verification of the tool-calling orchestration core of the
`paypal-payment-agent` repository: the conversation store
(`src/core/conversation.py`), the function registry
(`src/functions/registry.py`) and the ReAct orchestration loop
(`src/core/agent.py`, `PayPalReactAgent.process_message`).

The Python code is shallowly embedded: Python dicts used as JSON payloads
become the `Json` inductive, the conversation history becomes a list of
`Turn`s, the registry becomes association lists with Python-dict update
semantics, and the orchestration loop becomes a fuel-bounded recursive
function (`runLoop` / `processMessage`) parameterised over the external
collaborators (the Model Gateway stub `llm`, the JSON deserialiser
`loads` which models `json.loads`, the registry, and the payment
provider handle).  Raised Python exceptions are modelled with
`Except String`.  Calls to `time.time()` are modelled by an explicit
clock counter threaded through the run; no proved property inspects
timestamp values.

`processMessage` additionally returns an instrumentation trace
(the gateway calls made, the tool executions performed, the failed
`json.loads` invocations, each with snapshots of the history at that
point).  The trace is derived bookkeeping only: it is appended to on the
side and never read by the embedded control flow.
-/

namespace PayPalAgent

/-- JSON values: the Python dict/list/str/num/bool/None payloads passed
between the agent, the registry and the conversation store. -/
inductive Json where
  | null : Json
  | bool : Bool → Json
  | num : Int → Json
  | str : String → Json
  | arr : List Json → Json
  | obj : List (String × Json) → Json

/-- Escape a string for JSON output (models the escaping done by
Python's `json.dumps` for the quote and backslash characters). -/
def jsonEscape (s : String) : String :=
  s.foldl
    (fun acc c =>
      acc ++ (if c = '"' then "\\\"" else if c = '\\' then "\\\\" else String.singleton c))
    ""

mutual

/-- Serialisation of a JSON value to text, modelling Python's
`json.dumps` with its default separators. -/
def Json.dumps : Json → String
  | .null => "null"
  | .bool true => "true"
  | .bool false => "false"
  | .num n => toString n
  | .str s => "\"" ++ jsonEscape s ++ "\""
  | .arr xs => "[" ++ Json.dumpsList xs ++ "]"
  | .obj kvs => "\x7b" ++ Json.dumpsObj kvs ++ "\x7d"

/-- Serialise the elements of a JSON array, comma-separated. -/
def Json.dumpsList : List Json → String
  | [] => ""
  | [x] => x.dumps
  | x :: y :: xs => x.dumps ++ ", " ++ Json.dumpsList (y :: xs)

/-- Serialise the key/value pairs of a JSON object, comma-separated. -/
def Json.dumpsObj : List (String × Json) → String
  | [] => ""
  | [(k, v)] => "\"" ++ jsonEscape k ++ "\": " ++ v.dumps
  | (k, v) :: p :: xs =>
      "\"" ++ jsonEscape k ++ "\": " ++ v.dumps ++ ", " ++ Json.dumpsObj (p :: xs)

end

/-- The `function_call` payload of a model response and of an assistant
turn: a tool name together with the raw (still serialised) arguments,
as in `agent.py` lines 106-109. -/
structure FunctionCallData where
  name : String
  arguments : String
deriving DecidableEq

/-- A Model Gateway response dict as produced by
`OpenAIAdapter.get_completion`: an optional `content` entry (absent key
modelled as `none`) and an optional `function_call` entry. -/
structure LLMResponse where
  content : Option String := none
  functionCall : Option FunctionCallData := none
deriving DecidableEq

/-- One projected message as returned by
`ConversationManager.get_messages`: role, content, and the `name` key
when present. -/
structure ProjMsg where
  role : String
  content : String
  name : Option String := none
deriving DecidableEq

/-- One stored conversation turn, as built by
`ConversationManager.add_message` (fields `role`, `content`,
`timestamp`, optional `name`) and `ConversationManager.add_function_call`
(fields `role`, `content`, `function_call`, `timestamp`). -/
structure Turn where
  role : String
  content : String
  timestamp : Nat
  name : Option String := none
  functionCall : Option FunctionCallData := none
deriving DecidableEq

/-- The conversation store of `src/core/conversation.py`:
an ordered history of turns and the `max_history` bound. -/
structure ConversationManager where
  history : List Turn := []
  maxHistory : Nat := 100

/-- Python's `l[-k:]` slice for a nonnegative `k`: the whole list when
`k = 0` (because `-0 == 0` starts the slice at the beginning), otherwise
the last `k` elements. -/
def pyLastSlice (k : Nat) (l : List Turn) : List Turn :=
  if k = 0 then l else l.drop (l.length - k)

/-- The truncation step shared by `add_message` and `add_function_call`:
`if len(self.history) > self.max_history: self.history = self.history[-self.max_history:]`. -/
def truncateHistory (k : Nat) (l : List Turn) : List Turn :=
  if l.length > k then pyLastSlice k l else l

/-- `ConversationManager.add_message(role, content, function_name=None)`:
append a turn (with the `name` key present iff `function_name` was
given), then truncate to the bound.  The `ts` argument models the
`time.time()` reading. -/
def ConversationManager.add_message (c : ConversationManager)
    (role content : String) (function_name : Option String) (ts : Nat) :
    ConversationManager :=
  let message : Turn :=
    { role := role, content := content, timestamp := ts
      name := function_name, functionCall := none }
  { c with history := truncateHistory c.maxHistory (c.history ++ [message]) }

/-- `ConversationManager.add_function_call(role, content, function_call_data)`:
append an assistant turn carrying a pending function call, then truncate
to the bound. -/
def ConversationManager.add_function_call (c : ConversationManager)
    (role content : String) (function_call_data : FunctionCallData) (ts : Nat) :
    ConversationManager :=
  let message : Turn :=
    { role := role, content := content, timestamp := ts
      name := none, functionCall := some function_call_data }
  { c with history := truncateHistory c.maxHistory (c.history ++ [message]) }

/-- `ConversationManager.get_messages()`: project every stored turn to
`role`, `content` and (when present) `name`; the timestamp and the
`function_call` payload are not included. -/
def ConversationManager.get_messages (c : ConversationManager) : List ProjMsg :=
  c.history.map (fun m => { role := m.role, content := m.content, name := m.name })

/-- `ConversationManager.clear()`: reset the history to empty. -/
def ConversationManager.clear (c : ConversationManager) : ConversationManager :=
  { c with history := [] }

/-- The external payment-provider handle (`self.payment`), an opaque
collaborator passed through to tool handlers. -/
def PaymentProvider := Unit

/-- A registered tool callable.  `needsProvider` models the
`"payment_provider" in func.__code__.co_varnames` signature inspection
done by `FunctionRegistry.execute`; `run` models calling the Python
function with keyword arguments (which may raise, hence `Except`). -/
structure ToolHandler where
  needsProvider : Bool
  run : Option PaymentProvider → List (String × Json) → Except String Json

/-- Python-dict membership test on an association list. -/
def dictHasKey {α : Type} (m : List (String × α)) (k : String) : Bool :=
  m.any (fun p => p.1 == k)

/-- Python-dict update `m[k] = v`: overwrite in place when the key
exists (keeping its position in insertion order), else append. -/
def dictInsert {α : Type} (m : List (String × α)) (k : String) (v : α) :
    List (String × α) :=
  if dictHasKey m k then m.map (fun p => if p.1 == k then (k, v) else p)
  else m ++ [(k, v)]

/-- Python-dict lookup `m.get(k)`. -/
def dictGet {α : Type} (m : List (String × α)) (k : String) : Option α :=
  (m.find? (fun p => p.1 == k)).map (·.2)

/-- The function registry of `src/functions/registry.py`: two
insertion-ordered mappings, name to callable and name to schema. -/
structure FunctionRegistry where
  functions : List (String × ToolHandler) := []
  schemas : List (String × Json) := []

/-- `FunctionRegistry.register(name, func, schema)`. -/
def FunctionRegistry.register (r : FunctionRegistry)
    (name : String) (func : ToolHandler) (schema : Json) : FunctionRegistry :=
  { functions := dictInsert r.functions name func
    schemas := dictInsert r.schemas name schema }

/-- `FunctionRegistry.get_function(name)`. -/
def FunctionRegistry.get_function (r : FunctionRegistry) (name : String) :
    Option ToolHandler :=
  dictGet r.functions name

/-- `FunctionRegistry.get_schema(name)`. -/
def FunctionRegistry.get_schema (r : FunctionRegistry) (name : String) :
    Option Json :=
  dictGet r.schemas name

/-- `FunctionRegistry.get_schemas()`: all schemas in insertion order. -/
def FunctionRegistry.get_schemas (r : FunctionRegistry) : List Json :=
  r.schemas.map (·.2)

/-- `FunctionRegistry.get_all_functions()`: same value list as
`get_schemas`, used by the agent to offer tools to the model. -/
def FunctionRegistry.get_all_functions (r : FunctionRegistry) : List Json :=
  r.schemas.map (·.2)

/-- `FunctionRegistry.execute(name, arguments, payment_provider)`:
look the name up; when absent return the not-found error dict (never
raise); when present, expand the arguments as keyword arguments
(raising a `TypeError` when they are not a mapping) and call the
handler, passing the provider first when the handler's signature asks
for it. -/
def FunctionRegistry.execute (r : FunctionRegistry)
    (name : String) (arguments : Json) (payment_provider : Option PaymentProvider) :
    Except String Json :=
  match r.get_function name with
  | some func =>
      match arguments with
      | .obj kwargs =>
          if payment_provider.isSome && func.needsProvider then
            func.run payment_provider kwargs
          else
            func.run none kwargs
      | _ => .error "TypeError: arguments do not expand to a keyword mapping"
  | none =>
      .ok (.obj [("status", .str "error"),
                 ("message", .str ("Function " ++ name ++ " not found in PayPal sandbox"))])

/-- A Model Gateway stub: `llm.get_completion(messages, functions)`.
The second argument is `some schemas` for the calls that offer tool
schemas and `none` for the forced final call that omits the `functions`
parameter.  A transport/provider fault (a raised exception) is the
`Except.error` case. -/
def LLMStub := List ProjMsg → Option (List Json) → Except String LLMResponse

/-- A model of `json.loads` on raw tool arguments: either the parsed
JSON value or a raised deserialisation exception. -/
def JsonLoads := String → Except String Json

/-- Instrumentation record of one Model Gateway call: the arguments it
was given, the conversation history snapshot at the moment of the call,
and its outcome. -/
structure GatewayCall where
  messagesArg : List ProjMsg
  functionsArg : Option (List Json)
  historyAt : List Turn
  outcome : Except String LLMResponse

/-- Instrumentation record of one failed `json.loads` on the raw
arguments of a requested tool call, with snapshots taken at the
failure. -/
structure LoadFailure where
  toolName : String
  rawArguments : String
  errMsg : String
  historyAt : List Turn
  callsAt : Nat
  execsAt : Nat

/-- Mutable state threaded through one `process_message` run: the
conversation store, the clock used for `time.time()` readings, the
`user_logs` list, and the instrumentation traces. -/
structure LoopState where
  conv : ConversationManager
  clock : Nat
  userLogs : List String
  calls : List GatewayCall
  execs : List (String × Json)
  loadFailures : List LoadFailure

/-- The dict returned by `process_message`: `status`, `response`, and
`user_logs`. -/
structure AgentResult where
  status : String
  response : String
  user_logs : List String

/-- Everything observable about one `process_message` run: the returned
dict, the conversation store afterwards, and the instrumentation
traces. -/
structure ProcessOutcome where
  result : AgentResult
  conv : ConversationManager
  calls : List GatewayCall
  execs : List (String × Json)
  loadFailures : List LoadFailure

/-- The `max_turns = 3` bound set at `agent.py` line 74. -/
def maxTurns : Nat := 3

/-- The fixed fallback text used when the forced final completion
carries no `content` key (`agent.py` line 168). -/
def maxTurnsFallback : String :=
  "I\x27ve reached the maximum number of PayPal API calls I can make in sandbox mode for this request."

/-- The fixed first part of the message returned by the outer exception
handler (`agent.py` line 194); the raised exception's text is appended
after it. -/
def errorResponseBase : String :=
  "I encountered an error while processing your request in PayPal sandbox mode: "

/-- The message returned on an unexpected response format
(`agent.py` line 183). -/
def unexpectedFormatResponse : String :=
  "I encountered an error while processing your request in PayPal sandbox mode."

/-- Truthiness of `"content" in current_response and current_response["content"]`:
the `content` key is present and non-empty. -/
def hasText (r : LLMResponse) : Bool :=
  match r.content with
  | some s => s != ""
  | none => false

/-- Issue one Model Gateway call over the current message projection,
recording it in the instrumentation trace. -/
def callGateway (llm : LLMStub) (st : LoopState) (fns : Option (List Json)) :
    LoopState × Except String LLMResponse :=
  let msgs := st.conv.get_messages
  let r := llm msgs fns
  ({ st with calls := st.calls ++ [⟨msgs, fns, st.conv.history, r⟩] }, r)

/-- The inner `try`/`except` of `agent.py` lines 114-133: execute the
requested function through the registry; on success append the dumped
result as a function turn, on a raised exception append the dumped
`{"error": ..., "status": "error"}` dict instead.  Either way the loop
continues. -/
def runTool (reg : FunctionRegistry) (payment : PaymentProvider)
    (st : LoopState) (function_name : String) (arguments : Json) : LoopState :=
  let st := { st with execs := st.execs ++ [(function_name, arguments)] }
  match reg.execute function_name arguments (some payment) with
  | .ok function_result =>
      { st with
        userLogs := st.userLogs ++ ["[SANDBOX] Completed action: " ++ function_name]
        conv := st.conv.add_message "function" function_result.dumps
                  (some function_name) st.clock
        clock := st.clock + 1 }
  | .error e =>
      { st with
        userLogs := st.userLogs ++ ["[SANDBOX] Error executing action: " ++ function_name]
        conv := st.conv.add_message "function"
                  (Json.obj [("error", .str e), ("status", .str "error")]).dumps
                  (some function_name) st.clock
        clock := st.clock + 1 }

/-- Record a raised `json.loads` exception in the instrumentation
trace; the exception itself propagates to the outer handler. -/
def recordLoadFailure (st : LoopState) (fc : FunctionCallData) (e : String) : LoopState :=
  { st with loadFailures := st.loadFailures ++
      [⟨fc.name, fc.arguments, e, st.conv.history, st.calls.length, st.execs.length⟩] }

/-- The body of one iteration of the `while` loop after the raw
arguments deserialised (`agent.py` lines 94-133): log the action,
append the assistant turn carrying the function call, then execute the
tool and append its result. -/
def loopIter (reg : FunctionRegistry) (payment : PaymentProvider)
    (st : LoopState) (resp : LLMResponse) (fc : FunctionCallData)
    (arguments : Json) : LoopState :=
  let st := { st with userLogs := st.userLogs ++ ["[SANDBOX] Executing action: " ++ fc.name] }
  let assistant_content := resp.content.getD ""
  let st := { st with
    conv := st.conv.add_function_call "assistant" assistant_content fc st.clock
    clock := st.clock + 1 }
  runTool reg payment st fc.name arguments

/-- The `while turns < max_turns and "function_call" in current_response`
loop of `agent.py` lines 86-140, with `fuel = max_turns - turns` as the
recursion measure.  Returns the state together with either the raised
exception or the remaining fuel and the response the loop stopped on. -/
def runLoop (llm : LLMStub) (loads : JsonLoads) (reg : FunctionRegistry)
    (payment : PaymentProvider) (available : List Json) :
    Nat → LoopState → LLMResponse → LoopState × Except String (Nat × LLMResponse)
  | 0, st, resp => (st, .ok (0, resp))
  | fuel + 1, st, resp =>
    match resp.functionCall with
    | none => (st, .ok (fuel + 1, resp))
    | some fc =>
      match loads fc.arguments with
      | .error e => (recordLoadFailure st fc e, .error e)
      | .ok arguments =>
        let st1 := loopIter reg payment st resp fc arguments
        let p := callGateway llm st1 (some available)
        match p.2 with
        | .error e => (p.1, .error e)
        | .ok resp2 => runLoop llm loads reg payment available fuel p.1 resp2

/-- The outer exception handler of `agent.py` lines 187-196: status
`error`, the fixed message with the exception text appended, and the
conversation exactly as it was when the exception was raised. -/
def exceptionOutcome (st : LoopState) (e : String) : ProcessOutcome :=
  { result := ⟨"error", errorResponseBase ++ e,
               st.userLogs ++ ["[SANDBOX] Error processing request"]⟩
    conv := st.conv, calls := st.calls, execs := st.execs
    loadFailures := st.loadFailures }

/-- `PayPalReactAgent.process_message(user_message)`, parameterised over
the Model Gateway stub, the `json.loads` model, the registry, and the
payment provider handle.  `clock0` seeds the `time.time()` model. -/
def processMessage (llm : LLMStub) (loads : JsonLoads) (reg : FunctionRegistry)
    (payment : PaymentProvider) (conv0 : ConversationManager) (clock0 : Nat)
    (user_message : String) : ProcessOutcome :=
  let conv := conv0.add_message "user" user_message none clock0
  let st : LoopState :=
    ⟨conv, clock0 + 1,
     ["[SANDBOX] Processing request with PayPal REST API (sandbox mode only)"],
     [], [], []⟩
  let available := reg.get_all_functions
  let p0 := callGateway llm st (some available)
  match p0.2 with
  | .error e => exceptionOutcome p0.1 e
  | .ok resp0 =>
    match runLoop llm loads reg payment available maxTurns p0.1 resp0 with
    | (st1, .error e) => exceptionOutcome st1 e
    | (st1, .ok (fuelLeft, resp)) =>
      let turns := maxTurns - fuelLeft
      if hasText resp then
        let assistant_message := resp.content.getD ""
        { result := ⟨"success", assistant_message,
                     st1.userLogs ++ ["[SANDBOX] Request processed successfully"]⟩
          conv := st1.conv.add_message "assistant" assistant_message none st1.clock
          calls := st1.calls, execs := st1.execs, loadFailures := st1.loadFailures }
      else if resp.functionCall.isSome ∧ maxTurns ≤ turns then
        let st2 := { st1 with userLogs := st1.userLogs ++ ["[SANDBOX] Maximum PayPal API calls reached"] }
        let p1 := callGateway llm st2 none
        match p1.2 with
        | .error e => exceptionOutcome p1.1 e
        | .ok final_response =>
          let assistant_message := final_response.content.getD maxTurnsFallback
          { result := ⟨"warning", assistant_message, p1.1.userLogs⟩
            conv := p1.1.conv.add_message "assistant" assistant_message none p1.1.clock
            calls := p1.1.calls, execs := p1.1.execs, loadFailures := p1.1.loadFailures }
      else
        { result := ⟨"error", unexpectedFormatResponse,
                     st1.userLogs ++ ["[SANDBOX] Error processing request"]⟩
          conv := st1.conv, calls := st1.calls, execs := st1.execs
          loadFailures := st1.loadFailures }

/-! Machinery for the conversation-store bound property: an abstract
operation sequence against one `ConversationManager`. -/

/-- One store operation: `add_message role content function_name` (at a
clock reading) or `add_function_call role content function_call_data`. -/
inductive ConvOp where
  | msg : String → String → Option String → Nat → ConvOp
  | fnCall : String → String → FunctionCallData → Nat → ConvOp

/-- Apply one store operation. -/
def applyOp (c : ConversationManager) : ConvOp → ConversationManager
  | .msg role content function_name ts => c.add_message role content function_name ts
  | .fnCall role content fc ts => c.add_function_call role content fc ts

/-- Apply a sequence of store operations in order. -/
def runOps (c : ConversationManager) (ops : List ConvOp) : ConversationManager :=
  ops.foldl applyOp c

/-- The turn a store operation appends. -/
def opTurn : ConvOp → Turn
  | .msg role content function_name ts =>
      { role := role, content := content, timestamp := ts
        name := function_name, functionCall := none }
  | .fnCall role content fc ts =>
      { role := role, content := content, timestamp := ts
        name := none, functionCall := some fc }

/-- The last `k` elements of a list (all of it when it is shorter). -/
def takeLastK (k : Nat) (l : List Turn) : List Turn :=
  l.drop (l.length - k)

/-! Machinery for the tool-turn pairing invariant. -/

/-- A function-role turn carries a tool name. -/
def namedFnB (t : Turn) : Bool :=
  !(t.role == "function") || t.name.isSome

/-- Adjacent-pair condition: when `b` is a function-role turn, `a` is an
assistant turn whose recorded tool request names the same tool. -/
def pairOKB (a b : Turn) : Bool :=
  !(b.role == "function") ||
    ((a.role == "assistant") &&
      match a.functionCall with
      | some fc => b.name == some fc.name
      | none => false)

/-- Every adjacent pair of the history satisfies `pairOKB`. -/
def chainB : List Turn → Bool
  | [] => true
  | [_] => true
  | a :: b :: rest => pairOKB a b && chainB (b :: rest)

/-- The pairing invariant that the code maintains: every function-role
turn is named, and every function-role turn with a predecessor follows
an assistant turn whose tool request names the same tool (the oldest
retained turn may be an orphaned function turn after eviction). -/
def goodHistoryB (h : List Turn) : Bool :=
  h.all namedFnB && chainB h

/-- The history does not start with a function-role turn. -/
def headNotFunctionB (h : List Turn) : Bool :=
  match h.head? with
  | some t => !(t.role == "function")
  | none => true

/-- The invariant exactly as the specification states it: every
function-role turn is named and immediately follows an assistant turn
whose tool request names it — so a function turn may not sit at the
head of the history. -/
def strictGoodB (h : List Turn) : Bool :=
  goodHistoryB h && headNotFunctionB h

/-- Conversation-store states reachable through the orchestration loop:
a fresh store (any bound), the store left by any `process_message` run
against any collaborators, and the store after an external reset. -/
inductive Reachable : ConversationManager → Prop where
  | init (k : Nat) : Reachable ⟨[], k⟩
  | step (llm : LLMStub) (loads : JsonLoads) (reg : FunctionRegistry)
      (payment : PaymentProvider) (clock0 : Nat) (user_message : String)
      {conv : ConversationManager} :
      Reachable conv →
      Reachable (processMessage llm loads reg payment conv clock0 user_message).conv
  | cleared {conv : ConversationManager} :
      Reachable conv → Reachable conv.clear

/-! Concrete collaborators and runs used by counterexamples and
witnesses. -/

/-- The opaque payment-provider handle. -/
def payment0 : PaymentProvider := ()

/-- A registry with nothing registered. -/
def emptyReg : FunctionRegistry := {}

/-- A `json.loads` model on which every raw-argument string
deserialises to the empty mapping. -/
def loadsEmptyObj : JsonLoads := fun _ => .ok (.obj [])

/-- A `json.loads` model on which every raw-argument string fails to
deserialise (as `json.loads` does on the string `x`). -/
def loadsFailing : JsonLoads := fun s => .error ("Expecting value: " ++ s)

/-- A Model Gateway stub that returns a tool request on every call,
with no content entry. -/
def stubAlwaysFc : LLMStub := fun _ _ => .ok ⟨none, some ⟨"t", "x"⟩⟩

/-- A Model Gateway stub that returns a tool request while at most one
message is in view and a final answer afterwards. -/
def stubOneTool : LLMStub := fun msgs _ =>
  if msgs.length ≤ 1 then .ok ⟨none, some ⟨"t", "a"⟩⟩ else .ok ⟨some "done", none⟩

/-- A Model Gateway stub that raises on every call. -/
def stubRaise : LLMStub := fun _ _ => .error "boom"

/-- A Model Gateway stub that raises with a distinctive internal detail
on every call. -/
def stubRaiseDetail : LLMStub := fun _ _ =>
  .error "Connection refused by internal host 10.0.0.7"

/-- A Model Gateway stub that requests a tool until a function-role
turn is in view and then raises. -/
def stubRaiseLate : LLMStub := fun msgs _ =>
  if msgs.any (fun m => m.role == "function") then .error "boom"
  else .ok ⟨none, some ⟨"t", "a"⟩⟩

/-- A Model Gateway stub that returns a tool request whenever tool
schemas are offered and the fixed text `done` when they are not. -/
def stubFcWithForced : LLMStub := fun _ fns =>
  match fns with
  | some _ => .ok ⟨none, some ⟨"t", "x"⟩⟩
  | none => .ok ⟨some "done", none⟩

/-- Run: tool-requesting stub, arguments deserialise, default bound. -/
def runAlwaysFc : ProcessOutcome :=
  processMessage stubAlwaysFc loadsEmptyObj emptyReg payment0 {} 0 "hi"

/-- Run: tool-requesting stub whose raw arguments fail to deserialise. -/
def runBadArgs : ProcessOutcome :=
  processMessage stubAlwaysFc loadsFailing emptyReg payment0 {} 0 "hi"

/-- Run: one tool call then a final answer, with `max_history = 2`. -/
def runEvicted : ProcessOutcome :=
  processMessage stubOneTool loadsEmptyObj emptyReg payment0 ⟨[], 2⟩ 0 "hi"

/-- Run: the gateway raises on the first call. -/
def runRaiseFirst : ProcessOutcome :=
  processMessage stubRaise loadsEmptyObj emptyReg payment0 {} 0 "hi"

/-- Run: the gateway raises with a distinctive internal detail. -/
def runRaiseDetail : ProcessOutcome :=
  processMessage stubRaiseDetail loadsEmptyObj emptyReg payment0 {} 0 "hi"

/-- Run: the gateway raises on the second call, with `max_history = 1`,
so the triggering user turn has been evicted by the time of the fault. -/
def runRaiseLate : ProcessOutcome :=
  processMessage stubRaiseLate loadsEmptyObj emptyReg payment0 ⟨[], 1⟩ 0 "hi"

/-- Run: tool requests with deserialisable arguments, a textual answer
on the forced no-tools call. -/
def runForced : ProcessOutcome :=
  processMessage stubFcWithForced loadsEmptyObj emptyReg payment0 {} 0 "hi"

/-- A concrete handler used in registry witnesses. -/
def handlerA : ToolHandler := ⟨false, fun _ _ => .ok .null⟩

/-- A second concrete handler used in registry witnesses. -/
def handlerB : ToolHandler := ⟨true, fun _ _ => .ok (.str "b")⟩

/-- A registry holding `handlerA` under the name `t`. -/
def regOne : FunctionRegistry := FunctionRegistry.register {} "t" handlerA (.str "s1")

/-- A concrete operation sequence used in the store-bound witness. -/
def opsW : List ConvOp :=
  [.msg "user" "one" none 0,
   .fnCall "assistant" "" ⟨"t", "a"⟩ 1,
   .msg "function" "r" (some "t") 2]

/-! Helper lemmas about the store's append-then-truncate step. -/

/-- Appending then truncating always keeps the appended turn last. -/
theorem truncate_getLast (k : Nat) (l : List Turn) (t : Turn) :
    (truncateHistory k (l ++ [t])).getLast? = some t := by
  unfold truncateHistory pyLastSlice
  split
  · split
    · exact List.getLast?_concat l
    · rename_i hk
      rw [List.drop_append_of_le_length (by
        simp only [List.length_append, List.length_singleton]
        omega)]
      exact List.getLast?_concat _
  · exact List.getLast?_concat l

/-- The history after `add_message` ends with the appended turn. -/
theorem add_message_getLast (c : ConversationManager)
    (role content : String) (function_name : Option String) (ts : Nat) :
    (c.add_message role content function_name ts).history.getLast? =
      some { role := role, content := content, timestamp := ts
             name := function_name, functionCall := none } :=
  truncate_getLast _ _ _

/-- The history after `add_function_call` ends with the appended turn. -/
theorem add_function_call_getLast (c : ConversationManager)
    (role content : String) (fc : FunctionCallData) (ts : Nat) :
    (c.add_function_call role content fc ts).history.getLast? =
      some { role := role, content := content, timestamp := ts
             name := none, functionCall := some fc } :=
  truncate_getLast _ _ _

/-! Helper lemmas about Python-dict association lists. -/

/-- A present key stays where it is: updating does not change length. -/
theorem dictInsert_length_of_mem {α : Type} (m : List (String × α)) (k : String)
    (v : α) (h : dictHasKey m k = true) :
    (dictInsert m k v).length = m.length := by
  unfold dictInsert
  rw [if_pos h, List.length_map]

/-- A lookup succeeds only on present keys. -/
theorem dictHasKey_of_get {α : Type} (m : List (String × α)) (k : String)
    (v : α) (h : dictGet m k = some v) : dictHasKey m k = true := by
  induction m with
  | nil => simp [dictGet] at h
  | cons p m ih =>
      by_cases hp : (p.1 == k) = true
      · simp [dictHasKey, List.any_cons, hp]
      · rw [dictGet, List.find?_cons_of_neg _ (by simp [hp])] at h
        simp only [dictHasKey, List.any_cons, hp, Bool.false_or]
        exact ih h

/-- After a Python-dict update, looking the key up yields the new value. -/
theorem dictGet_dictInsert_self {α : Type} (m : List (String × α)) (k : String)
    (v : α) (h : dictHasKey m k = true) :
    dictGet (dictInsert m k v) k = some v := by
  unfold dictInsert
  rw [if_pos h]
  induction m with
  | nil => simp [dictHasKey] at h
  | cons p m ih =>
      by_cases hp : (p.1 == k) = true
      · rw [List.map_cons, if_pos hp, dictGet,
            List.find?_cons_of_pos _ (by simp)]
        rfl
      · simp only [dictHasKey, List.any_cons, hp, Bool.false_or] at h
        rw [List.map_cons, if_neg hp, dictGet,
            List.find?_cons_of_neg _ (by simp [hp])]
        exact ih h

/-! Store-bound lemmas. -/

/-- For a bound of at least one, append-then-truncate keeps exactly the
most recent `k` of all turns ever appended. -/
theorem truncate_takeLastK (k : Nat) (hk : 1 ≤ k) (m : List Turn) (t : Turn) :
    truncateHistory k (takeLastK k m ++ [t]) = takeLastK k (m ++ [t]) := by
  unfold truncateHistory pyLastSlice takeLastK
  by_cases hlen : m.length < k
  · have h0 : m.length - k = 0 := by omega
    rw [h0, List.drop_zero,
        if_neg (by simp only [List.length_append, List.length_singleton]; omega)]
    simp only [List.length_append, List.length_singleton]
    rw [show m.length + 1 - k = 0 from by omega, List.drop_zero]
  · have hdl : (m.drop (m.length - k)).length = k := by
      rw [List.length_drop]; omega
    rw [if_pos (by simp only [List.length_append, List.length_singleton, hdl]; omega),
        if_neg (show ¬ k = 0 by omega)]
    simp only [List.length_append, List.length_singleton, hdl]
    rw [show k + 1 - k = 1 from by omega,
        List.drop_append_of_le_length (by omega),
        List.drop_drop,
        List.drop_append_of_le_length (by omega),
        show m.length + 1 - k = m.length - k + 1 from by omega]

/-- Invariant of operation sequences: with a bound of at least one, the
history is always exactly the most recent `k` appended turns. -/
theorem runOps_hist (k : Nat) (hk : 1 ≤ k) :
    ∀ (ops : List ConvOp) (conv : ConversationManager) (m : List Turn),
      conv.maxHistory = k → conv.history = takeLastK k m →
      (runOps conv ops).history = takeLastK k (m ++ ops.map opTurn) ∧
        (runOps conv ops).maxHistory = k := by
  intro ops
  induction ops with
  | nil =>
      intro conv m h1 h2
      simpa [runOps] using ⟨h2, h1⟩
  | cons op ops ih =>
      intro conv m h1 h2
      have hstep : (applyOp conv op).history = takeLastK k (m ++ [opTurn op]) ∧
          (applyOp conv op).maxHistory = k := by
        cases op with
        | msg r c n ts =>
            refine ⟨?_, h1⟩
            show (conv.add_message r c n ts).history = _
            unfold ConversationManager.add_message
            rw [h1, h2]
            exact truncate_takeLastK k hk m _
        | fnCall r c fc ts =>
            refine ⟨?_, h1⟩
            show (conv.add_function_call r c fc ts).history = _
            unfold ConversationManager.add_function_call
            rw [h1, h2]
            exact truncate_takeLastK k hk m _
      have h := ih (applyOp conv op) (m ++ [opTurn op]) hstep.2 hstep.1
      simpa [runOps, List.foldl_cons, List.map_cons, List.append_assoc] using h

/-- Claim C5, counterexample: with `max_history = 0`, Python's
`history[-0:]` slice keeps the whole list, so one `add_message` already
leaves the history longer than the bound. -/
theorem C5_counterexample :
    (runOps ⟨[], 0⟩ [ConvOp.msg "user" "hi" none 0]).history.length = 1 ∧
      ¬ (runOps ⟨[], 0⟩ [ConvOp.msg "user" "hi" none 0]).history.length ≤ 0 :=
  ⟨rfl, by decide⟩

/-- Claim C5 (amended: for `max_history ≥ 1`): for every sequence of
`add_message`/`add_function_call` operations on a fresh
`ConversationManager`, the history is always exactly the most recent
`max_history` appended turns in order, and in particular its length
never exceeds `max_history`.  (With `max_history = 0` the Python slice
`history[-0:]` keeps everything and the bound is violated.) -/
theorem C5_bounded_eviction (k : Nat) (hk : 1 ≤ k) (ops : List ConvOp) :
    (runOps ⟨[], k⟩ ops).history = takeLastK k (ops.map opTurn) ∧
      (runOps ⟨[], k⟩ ops).history.length ≤ k := by
  have h := runOps_hist k hk ops ⟨[], k⟩ [] rfl (by simp [takeLastK])
  have h1 : (runOps ⟨[], k⟩ ops).history = takeLastK k (ops.map opTurn) := by
    simpa using h.1
  refine ⟨h1, ?_⟩
  rw [h1]
  unfold takeLastK
  rw [List.length_drop]
  omega

/-- Claim C5 witness: the amended statement applied at the bound 2 and
a concrete three-operation sequence. -/
theorem C5_bounded_eviction_witness :
    (1 ≤ 2 ∧ (runOps ⟨[], 2⟩ opsW).history = takeLastK 2 (opsW.map opTurn)) ∧
      (runOps ⟨[], 2⟩ opsW).history.length ≤ 2 :=
  ⟨⟨by decide, (C5_bounded_eviction 2 (by decide) opsW).1⟩,
   (C5_bounded_eviction 2 (by decide) opsW).2⟩

/-- Claim C6, counterexample: dispatching an unregistered name returns
status `error`, but the message is `Function foo not found in PayPal
sandbox`, not the `unknown tool foo` stated by the specification. -/
theorem C6_counterexample :
    emptyReg.execute "foo" (.obj []) (some payment0) =
      .ok (.obj [("status", .str "error"),
                 ("message", .str "Function foo not found in PayPal sandbox")]) ∧
      "Function foo not found in PayPal sandbox" ≠ "unknown tool foo" :=
  ⟨rfl, by decide⟩

/-- Claim C6 (amended: actual message text): for every name not present
in the registry and any argument payload, `execute` returns the Tool
Result error `{status: error, message: "Function <name> not found in
PayPal sandbox"}` with the requested name interpolated, and does not
raise. -/
theorem C6_unknown_tool (reg : FunctionRegistry) (name : String)
    (arguments : Json) (pp : Option PaymentProvider)
    (h : reg.get_function name = none) :
    reg.execute name arguments pp =
      .ok (.obj [("status", .str "error"),
                 ("message", .str ("Function " ++ name ++ " not found in PayPal sandbox"))]) := by
  unfold FunctionRegistry.execute
  rw [h]

/-- Claim C6 witness: the amended statement at the empty registry and
the name `foo`. -/
theorem C6_unknown_tool_witness :
    emptyReg.get_function "foo" = none ∧
      emptyReg.execute "foo" (.obj []) (some payment0) =
        .ok (.obj [("status", .str "error"),
                   ("message", .str ("Function " ++ "foo" ++ " not found in PayPal sandbox"))]) :=
  ⟨rfl, C6_unknown_tool emptyReg "foo" (.obj []) (some payment0) rfl⟩

/-- Claim C9: `get_messages` projects the stored history one entry per
turn in order; each projected entry holds exactly the role, the content
and the optional `name`, with the timestamp and the `function_call`
payload dropped — so an assistant tool-request turn appended by
`add_function_call` is projected as a plain assistant message (possibly
empty content, no `name`, no record of the requested tool). -/
theorem C9_projection (c : ConversationManager) (i : Nat)
    (role content : String) (fc : FunctionCallData) (ts : Nat) :
    c.get_messages.length = c.history.length ∧
    c.get_messages[i]? =
      c.history[i]?.map (fun t => { role := t.role, content := t.content, name := t.name }) ∧
    (c.add_function_call role content fc ts).get_messages.getLast? =
      some { role := role, content := content, name := none } := by
  refine ⟨by simp [ConversationManager.get_messages], ?_, ?_⟩
  · exact List.getElem?_map _ _ _
  · unfold ConversationManager.get_messages
    rw [List.getLast?_map, add_function_call_getLast]
    rfl

/-- Claim C10: re-registering an already-registered name succeeds,
replaces both the stored handler and the stored schema (last write
wins), and leaves the number of entries of `get_schemas` and
`get_all_functions` unchanged. -/
theorem C10_reregistration (reg : FunctionRegistry) (name : String)
    (f1 : ToolHandler) (s1 : Json) (f2 : ToolHandler) (s2 : Json)
    (hf : reg.get_function name = some f1) (hs : reg.get_schema name = some s1) :
    (reg.register name f2 s2).get_function name = some f2 ∧
    (reg.register name f2 s2).get_schema name = some s2 ∧
    (reg.register name f2 s2).get_schemas.length = reg.get_schemas.length ∧
    (reg.register name f2 s2).get_all_functions.length = reg.get_all_functions.length := by
  have hkf := dictHasKey_of_get _ _ _ hf
  have hks := dictHasKey_of_get _ _ _ hs
  refine ⟨dictGet_dictInsert_self _ _ _ hkf, dictGet_dictInsert_self _ _ _ hks, ?_, ?_⟩
  · unfold FunctionRegistry.get_schemas FunctionRegistry.register
    rw [List.length_map, List.length_map, dictInsert_length_of_mem _ _ _ hks]
  · unfold FunctionRegistry.get_all_functions FunctionRegistry.register
    rw [List.length_map, List.length_map, dictInsert_length_of_mem _ _ _ hks]

/-- Claim C10 witness: re-register the name `t` of a one-entry
registry. -/
theorem C10_reregistration_witness :
    (regOne.register "t" handlerB (.str "s2")).get_function "t" = some handlerB ∧
    (regOne.register "t" handlerB (.str "s2")).get_schema "t" = some (.str "s2") ∧
    (regOne.register "t" handlerB (.str "s2")).get_schemas.length = regOne.get_schemas.length ∧
    (regOne.register "t" handlerB (.str "s2")).get_all_functions.length =
      regOne.get_all_functions.length :=
  C10_reregistration regOne "t" handlerA (.str "s1") handlerB (.str "s2") rfl rfl

/-! Bookkeeping lemmas about the loop building blocks. -/

/-- A gateway call does not touch the conversation. -/
theorem callGateway_fst_conv (llm : LLMStub) (st : LoopState) (fns : Option (List Json)) :
    (callGateway llm st fns).1.conv = st.conv := rfl

/-- A gateway call appends exactly one trace record. -/
theorem callGateway_fst_calls (llm : LLMStub) (st : LoopState) (fns : Option (List Json)) :
    (callGateway llm st fns).1.calls =
      st.calls ++ [⟨st.conv.get_messages, fns, st.conv.history,
                    llm st.conv.get_messages fns⟩] := rfl

/-- The outcome of a gateway call is the stub applied to the current
message projection. -/
theorem callGateway_snd (llm : LLMStub) (st : LoopState) (fns : Option (List Json)) :
    (callGateway llm st fns).2 = llm st.conv.get_messages fns := rfl

/-- A gateway call does not touch the execution trace. -/
theorem callGateway_fst_execs (llm : LLMStub) (st : LoopState) (fns : Option (List Json)) :
    (callGateway llm st fns).1.execs = st.execs := rfl

/-- A gateway call does not touch the load-failure trace. -/
theorem callGateway_fst_loadFailures (llm : LLMStub) (st : LoopState)
    (fns : Option (List Json)) :
    (callGateway llm st fns).1.loadFailures = st.loadFailures := rfl

/-- Tool execution does not touch the gateway-call trace. -/
theorem runTool_calls (reg : FunctionRegistry) (payment : PaymentProvider)
    (st : LoopState) (n : String) (a : Json) :
    (runTool reg payment st n a).calls = st.calls := by
  unfold runTool; split <;> rfl

/-- Tool execution appends exactly one execution record. -/
theorem runTool_execs (reg : FunctionRegistry) (payment : PaymentProvider)
    (st : LoopState) (n : String) (a : Json) :
    (runTool reg payment st n a).execs = st.execs ++ [(n, a)] := by
  unfold runTool; split <;> rfl

/-- Tool execution does not touch the load-failure trace. -/
theorem runTool_loadFailures (reg : FunctionRegistry) (payment : PaymentProvider)
    (st : LoopState) (n : String) (a : Json) :
    (runTool reg payment st n a).loadFailures = st.loadFailures := by
  unfold runTool; split <;> rfl

/-- A loop iteration does not touch the gateway-call trace. -/
theorem loopIter_calls (reg : FunctionRegistry) (payment : PaymentProvider)
    (st : LoopState) (resp : LLMResponse) (fc : FunctionCallData) (args : Json) :
    (loopIter reg payment st resp fc args).calls = st.calls := by
  unfold loopIter; rw [runTool_calls]

/-- A loop iteration appends exactly one execution record. -/
theorem loopIter_execs (reg : FunctionRegistry) (payment : PaymentProvider)
    (st : LoopState) (resp : LLMResponse) (fc : FunctionCallData) (args : Json) :
    (loopIter reg payment st resp fc args).execs = st.execs ++ [(fc.name, args)] := by
  unfold loopIter; rw [runTool_execs]

/-- A loop iteration does not touch the load-failure trace. -/
theorem loopIter_loadFailures (reg : FunctionRegistry) (payment : PaymentProvider)
    (st : LoopState) (resp : LLMResponse) (fc : FunctionCallData) (args : Json) :
    (loopIter reg payment st resp fc args).loadFailures = st.loadFailures := by
  unfold loopIter; rw [runTool_loadFailures]

/-- Against a gateway that answers every schema-offering call with a
tool request (and no text) whose arguments deserialise, the loop always
burns all its fuel, ends on a response of the same shape, and makes one
gateway call and one tool execution per unit of fuel, every such call
offering the schema list. -/
theorem runLoop_allFc (llm : LLMStub) (loads : JsonLoads) (reg : FunctionRegistry)
    (payment : PaymentProvider) (available : List Json)
    (H : ∀ msgs, ∃ r fc v, llm msgs (some available) = .ok r ∧
      r.functionCall = some fc ∧ hasText r = false ∧ loads fc.arguments = .ok v) :
    ∀ (fuel : Nat) (st : LoopState) (resp : LLMResponse),
      (∃ fc v, resp.functionCall = some fc ∧ hasText resp = false ∧
        loads fc.arguments = .ok v) →
      ∃ st2 resp2,
        runLoop llm loads reg payment available fuel st resp = (st2, .ok (0, resp2)) ∧
        (∃ fc2 v2, resp2.functionCall = some fc2 ∧ hasText resp2 = false ∧
          loads fc2.arguments = .ok v2) ∧
        st2.calls.length = st.calls.length + fuel ∧
        st2.execs.length = st.execs.length + fuel ∧
        st2.loadFailures = st.loadFailures ∧
        (∀ c ∈ st2.calls, c ∈ st.calls ∨ c.functionsArg = some available) := by
  intro fuel
  induction fuel with
  | zero =>
      intro st resp hr
      exact ⟨st, resp, rfl, hr, by omega, by omega, rfl, fun c hc => Or.inl hc⟩
  | succ fuel ih =>
      intro st resp hr
      obtain ⟨fc, v, hfc, _hnt, hv⟩ := hr
      obtain ⟨r2, fc2, v2, hllm, hfc2, hnt2, hv2⟩ :=
        H ((loopIter reg payment st resp fc v).conv.get_messages)
      have hih := ih (callGateway llm (loopIter reg payment st resp fc v) (some available)).1 r2
        ⟨fc2, v2, hfc2, hnt2, hv2⟩
      obtain ⟨st2, resp2, heq, hprops, hlc, hle, hlf, hmem⟩ := hih
      refine ⟨st2, resp2, ?_, hprops, ?_, ?_, ?_, ?_⟩
      · show runLoop llm loads reg payment available (fuel + 1) st resp = _
        rw [runLoop, hfc]
        simp only [hv,
          show (callGateway llm (loopIter reg payment st resp fc v) (some available)).2 =
            Except.ok r2 from by rw [callGateway_snd]; exact hllm]
        exact heq
      · rw [hlc, callGateway_fst_calls, List.length_append, loopIter_calls]
        simp only [List.length_singleton]
        omega
      · rw [hle, callGateway_fst_execs, loopIter_execs, List.length_append]
        simp only [List.length_singleton]
        omega
      · rw [hlf, callGateway_fst_loadFailures, loopIter_loadFailures]
      · intro c hc
        rcases hmem c hc with hin | hfa
        · rw [callGateway_fst_calls, loopIter_calls] at hin
          rcases List.mem_append.mp hin with hin' | hone
          · exact Or.inl hin'
          · simp only [List.mem_singleton] at hone
            subst hone
            exact Or.inr rfl
        · exact Or.inr hfa

/-- Claim C1, counterexample: a stub that answers every call with a
tool request drives `process_message` to 5 = `max_turns + 2` gateway
calls (initial call, three follow-ups after tool executions, and the
forced no-tools final call), exceeding the claimed `max_turns + 1 = 4`
bound; and when the stub's raw arguments do not deserialise, the run
aborts with status `error` instead of the claimed `warning`. -/
theorem C1_counterexample :
    (runAlwaysFc.calls.length = 5 ∧ ¬ (5 ≤ maxTurns + 1)) ∧
      runBadArgs.result.status = "error" :=
  ⟨⟨rfl, by decide⟩, rfl⟩

/-- Claim C1 (amended: the call bound is `max_turns + 2`, and the
stub's tool-request arguments must deserialise for the run to reach the
turn bound): for every Model Gateway stub that answers every call with
a tool request (hence no final-answer text, per the gateway interface)
whose raw arguments deserialise, `process_message` terminates, makes
exactly `max_turns + 2` gateway calls in total, and returns a result
whose status field is `warning`. -/
theorem C1_bounded_termination (llm : LLMStub) (loads : JsonLoads)
    (reg : FunctionRegistry) (payment : PaymentProvider)
    (conv0 : ConversationManager) (clock0 : Nat) (user_message : String)
    (H : ∀ msgs fns, ∃ r fc v, llm msgs fns = .ok r ∧ r.functionCall = some fc ∧
      hasText r = false ∧ loads fc.arguments = .ok v) :
    (processMessage llm loads reg payment conv0 clock0 user_message).calls.length =
      maxTurns + 2 ∧
    (processMessage llm loads reg payment conv0 clock0 user_message).result.status =
      "warning" := by
  obtain ⟨r0, fc0, v0, h0, hfc0, hnt0, hv0⟩ :=
    H ((conv0.add_message "user" user_message none clock0).get_messages)
      (some reg.get_all_functions)
  have Hsome : ∀ msgs, ∃ r fc v, llm msgs (some reg.get_all_functions) = .ok r ∧
      r.functionCall = some fc ∧ hasText r = false ∧ loads fc.arguments = .ok v :=
    fun msgs => H msgs (some reg.get_all_functions)
  obtain ⟨st2, resp2, heq, ⟨fc2, v2, hfc2, hnt2, hv2⟩, hlc, hle, hlf, hmem⟩ :=
    runLoop_allFc llm loads reg payment reg.get_all_functions Hsome maxTurns
      (callGateway llm
        ⟨conv0.add_message "user" user_message none clock0, clock0 + 1,
         ["[SANDBOX] Processing request with PayPal REST API (sandbox mode only)"],
         [], [], []⟩ (some reg.get_all_functions)).1 r0 ⟨fc0, v0, hfc0, hnt0, hv0⟩
  obtain ⟨r5, fc5, v5, h5, hfc5, hnt5, hv5⟩ := H st2.conv.get_messages none
  have h1 : (callGateway llm
      ⟨conv0.add_message "user" user_message none clock0, clock0 + 1,
       ["[SANDBOX] Processing request with PayPal REST API (sandbox mode only)"],
       [], [], []⟩ (some reg.get_all_functions)).1.calls.length = 1 := by
    rw [callGateway_fst_calls]
    rfl
  simp only [processMessage, callGateway_snd, h0, heq, hnt2, hfc2, h5,
    Option.isSome_some, Nat.sub_zero, Bool.false_eq_true, if_false,
    le_refl, and_true, if_true, true_and]
  simp only [callGateway_fst_calls, List.length_append, List.length_singleton]
  rw [hlc, h1]
  omega

/-- Claim C1 witness: the amended statement at the constant
tool-requesting stub. -/
theorem C1_bounded_termination_witness :
    runAlwaysFc.calls.length = maxTurns + 2 ∧
      runAlwaysFc.result.status = "warning" :=
  C1_bounded_termination stubAlwaysFc loadsEmptyObj emptyReg payment0 {} 0 "hi"
    (fun _ _ => ⟨⟨none, some ⟨"t", "x"⟩⟩, ⟨"t", "x"⟩, .obj [], rfl, rfl, rfl, rfl⟩)

/-- Claim C2: when the turn bound is reached and the model's latest
response still carries a tool request (and, per the gateway interface,
no final-answer text), `process_message` does not execute that tool
(exactly `max_turns` executions happen, one per loop iteration), issues
exactly one more gateway call — the only one with no tool schemas
offered — appends the text returned by that forced call as the final
assistant turn, and returns status `warning` with that text as the
response, or with the fixed fallback string when the forced call
returns no text (`content` absent, projected by `Option.getD`); the
bound `max_turns` is 3. -/
theorem C2_forced_final (llm : LLMStub) (loads : JsonLoads)
    (reg : FunctionRegistry) (payment : PaymentProvider)
    (conv0 : ConversationManager) (clock0 : Nat) (user_message : String)
    (R : LLMResponse)
    (H1 : ∀ msgs, ∃ r fc v, llm msgs (some reg.get_all_functions) = .ok r ∧
      r.functionCall = some fc ∧ hasText r = false ∧ loads fc.arguments = .ok v)
    (H2 : ∀ msgs, llm msgs none = .ok R) :
    maxTurns = 3 ∧
    (processMessage llm loads reg payment conv0 clock0 user_message).execs.length =
      maxTurns ∧
    (processMessage llm loads reg payment conv0 clock0 user_message).calls.length =
      maxTurns + 2 ∧
    (∀ c ∈ (processMessage llm loads reg payment conv0 clock0 user_message).calls.dropLast,
      c.functionsArg = some reg.get_all_functions) ∧
    ((processMessage llm loads reg payment conv0 clock0 user_message).calls.getLast?.map
      (fun c => c.functionsArg)) = some none ∧
    (processMessage llm loads reg payment conv0 clock0 user_message).result.status =
      "warning" ∧
    (processMessage llm loads reg payment conv0 clock0 user_message).result.response =
      R.content.getD maxTurnsFallback ∧
    ((processMessage llm loads reg payment conv0 clock0 user_message).conv.history.getLast?.map
      (fun t => (t.role, t.content, t.name, t.functionCall))) =
      some ("assistant", R.content.getD maxTurnsFallback, none, none) := by
  obtain ⟨r0, fc0, v0, h0, hfc0, hnt0, hv0⟩ :=
    H1 ((conv0.add_message "user" user_message none clock0).get_messages)
  obtain ⟨st2, resp2, heq, ⟨fc2, v2, hfc2, hnt2, hv2⟩, hlc, hle, hlf, hmem⟩ :=
    runLoop_allFc llm loads reg payment reg.get_all_functions H1 maxTurns
      (callGateway llm
        ⟨conv0.add_message "user" user_message none clock0, clock0 + 1,
         ["[SANDBOX] Processing request with PayPal REST API (sandbox mode only)"],
         [], [], []⟩ (some reg.get_all_functions)).1 r0 ⟨fc0, v0, hfc0, hnt0, hv0⟩
  have h5 := H2 st2.conv.get_messages
  have h1 : (callGateway llm
      ⟨conv0.add_message "user" user_message none clock0, clock0 + 1,
       ["[SANDBOX] Processing request with PayPal REST API (sandbox mode only)"],
       [], [], []⟩ (some reg.get_all_functions)).1.calls =
      [⟨(conv0.add_message "user" user_message none clock0).get_messages,
        some reg.get_all_functions,
        (conv0.add_message "user" user_message none clock0).history,
        llm (conv0.add_message "user" user_message none clock0).get_messages
          (some reg.get_all_functions)⟩] := by
    rw [callGateway_fst_calls]
    rfl
  have h1e : (callGateway llm
      ⟨conv0.add_message "user" user_message none clock0, clock0 + 1,
       ["[SANDBOX] Processing request with PayPal REST API (sandbox mode only)"],
       [], [], []⟩ (some reg.get_all_functions)).1.execs = [] := rfl
  refine ⟨rfl, ?_, ?_, ?_, ?_, ?_, ?_, ?_⟩
  all_goals
    simp only [processMessage, callGateway_snd, h0, heq, hnt2, hfc2, h5,
      Option.isSome_some, Nat.sub_zero, Bool.false_eq_true, if_false,
      le_refl, and_true, if_true, true_and]
  · rw [callGateway_fst_execs]
    show st2.execs.length = _
    rw [hle, h1e]
    simp
  · simp only [callGateway_fst_calls, List.length_append, List.length_singleton]
    rw [hlc, h1]
    simp only [List.length_singleton]
    omega
  · intro c hc
    rw [callGateway_fst_calls] at hc
    have hc' : c ∈ st2.calls := by
      simpa [List.dropLast_concat] using hc
    rcases hmem c hc' with hin | hfa
    · rw [h1] at hin
      simp only [List.mem_singleton] at hin
      subst hin
      rfl
    · exact hfa
  · rw [callGateway_fst_calls]
    rw [List.getLast?_concat]
    rfl
  · rw [callGateway_fst_conv, add_message_getLast]
    rfl

/-- Claim C2 witness: the statement at a stub that requests a tool
whenever schemas are offered and answers `done` on the forced
schema-free call. -/
theorem C2_forced_final_witness :
    maxTurns = 3 ∧
    runForced.execs.length = maxTurns ∧
    runForced.calls.length = maxTurns + 2 ∧
    (∀ c ∈ runForced.calls.dropLast, c.functionsArg = some emptyReg.get_all_functions) ∧
    (runForced.calls.getLast?.map (fun c => c.functionsArg)) = some none ∧
    runForced.result.status = "warning" ∧
    runForced.result.response =
      (⟨some "done", none⟩ : LLMResponse).content.getD maxTurnsFallback ∧
    (runForced.conv.history.getLast?.map
      (fun t => (t.role, t.content, t.name, t.functionCall))) =
      some ("assistant",
        (⟨some "done", none⟩ : LLMResponse).content.getD maxTurnsFallback, none, none) :=
  C2_forced_final stubFcWithForced loadsEmptyObj emptyReg payment0 {} 0 "hi"
    ⟨some "done", none⟩
    (fun _ => ⟨⟨none, some ⟨"t", "x"⟩⟩, ⟨"t", "x"⟩, .obj [], rfl, rfl, rfl, rfl⟩)
    (fun _ => rfl)

/-- When the loop returns normally, it recorded no load failure and
every gateway call it added succeeded. -/
theorem runLoop_ok_inv (llm : LLMStub) (loads : JsonLoads) (reg : FunctionRegistry)
    (payment : PaymentProvider) (available : List Json) :
    ∀ (fuel : Nat) (st : LoopState) (resp : LLMResponse) (st2 : LoopState)
      (x : Nat × LLMResponse),
      runLoop llm loads reg payment available fuel st resp = (st2, .ok x) →
      st2.loadFailures = st.loadFailures ∧
        (∀ c ∈ st2.calls, c ∈ st.calls ∨ ∃ r, c.outcome = Except.ok r) := by
  intro fuel
  induction fuel with
  | zero =>
      intro st resp st2 x h
      simp only [runLoop, Prod.mk.injEq] at h
      obtain ⟨rfl, -⟩ := h
      exact ⟨rfl, fun c hc => Or.inl hc⟩
  | succ fuel ih =>
      intro st resp st2 x h
      cases hfc : resp.functionCall with
      | none =>
          simp only [runLoop, hfc, Prod.mk.injEq] at h
          obtain ⟨rfl, -⟩ := h
          exact ⟨rfl, fun c hc => Or.inl hc⟩
      | some fc =>
          cases hv : loads fc.arguments with
          | error e =>
              simp only [runLoop, hfc, hv, Prod.mk.injEq] at h
              exact absurd h.2 (by simp)
          | ok args =>
              cases hg : (callGateway llm (loopIter reg payment st resp fc args)
                  (some available)).2 with
              | error e =>
                  simp only [runLoop, hfc, hv, hg, Prod.mk.injEq] at h
                  exact absurd h.2 (by simp)
              | ok resp2 =>
                  simp only [runLoop, hfc, hv, hg] at h
                  obtain ⟨hlf, hcalls⟩ := ih _ resp2 st2 x h
                  refine ⟨by rw [hlf, callGateway_fst_loadFailures, loopIter_loadFailures], ?_⟩
                  intro c hc
                  rcases hcalls c hc with hin | hok
                  · rw [callGateway_fst_calls, loopIter_calls] at hin
                    rcases List.mem_append.mp hin with h' | hone
                    · exact Or.inl h'
                    · simp only [List.mem_singleton] at hone
                      subst hone
                      exact Or.inr ⟨resp2, hg⟩
                  · exact Or.inr hok

/-- When the loop propagates an exception, either the last recorded
gateway call raised it (and the conversation is exactly that call's
snapshot, with every earlier added call successful), or `json.loads`
raised it (recorded in the load-failure trace with matching snapshots,
all added calls successful). -/
theorem runLoop_error_inv (llm : LLMStub) (loads : JsonLoads) (reg : FunctionRegistry)
    (payment : PaymentProvider) (available : List Json) :
    ∀ (fuel : Nat) (st : LoopState) (resp : LLMResponse) (st2 : LoopState) (e : String),
      runLoop llm loads reg payment available fuel st resp = (st2, .error e) →
      (∃ pre lastC, st2.calls = pre ++ [lastC] ∧ lastC.outcome = Except.error e ∧
          st2.conv.history = lastC.historyAt ∧ st2.loadFailures = st.loadFailures ∧
          (∀ c ∈ pre, c ∈ st.calls ∨ ∃ r, c.outcome = Except.ok r)) ∨
      (∃ f, st2.loadFailures = st.loadFailures ++ [f] ∧ f.errMsg = e ∧
          st2.conv.history = f.historyAt ∧ st2.calls.length = f.callsAt ∧
          st2.execs.length = f.execsAt ∧
          (∀ c ∈ st2.calls, c ∈ st.calls ∨ ∃ r, c.outcome = Except.ok r)) := by
  intro fuel
  induction fuel with
  | zero =>
      intro st resp st2 e h
      simp only [runLoop, Prod.mk.injEq] at h
      exact absurd h.2 (by simp)
  | succ fuel ih =>
      intro st resp st2 e h
      cases hfc : resp.functionCall with
      | none =>
          simp only [runLoop, hfc, Prod.mk.injEq] at h
          exact absurd h.2 (by simp)
      | some fc =>
          cases hv : loads fc.arguments with
          | error e0 =>
              simp only [runLoop, hfc, hv, Prod.mk.injEq] at h
              obtain ⟨rfl, he⟩ := h
              have he' : e0 = e := by simpa using he
              subst he'
              refine Or.inr ⟨⟨fc.name, fc.arguments, e0, st.conv.history,
                st.calls.length, st.execs.length⟩, rfl, rfl, rfl, rfl, rfl, ?_⟩
              intro c hc
              exact Or.inl hc
          | ok args =>
              cases hg : (callGateway llm (loopIter reg payment st resp fc args)
                  (some available)).2 with
              | error e0 =>
                  simp only [runLoop, hfc, hv, hg, Prod.mk.injEq] at h
                  obtain ⟨rfl, he⟩ := h
                  have he' : e0 = e := by simpa using he
                  subst he'
                  refine Or.inl ⟨(loopIter reg payment st resp fc args).calls, _,
                    callGateway_fst_calls _ _ _, hg, rfl, ?_, ?_⟩
                  · rw [callGateway_fst_loadFailures, loopIter_loadFailures]
                  · intro c hc
                    rw [loopIter_calls] at hc
                    exact Or.inl hc
              | ok resp2 =>
                  simp only [runLoop, hfc, hv, hg] at h
                  rcases ih _ resp2 st2 e h with
                    ⟨pre, lastC, hcalls, hout, hhist, hlf, hpre⟩ | ⟨f, hlf, herr, hhist, hca, hex, hmem⟩
                  · refine Or.inl ⟨pre, lastC, hcalls, hout, hhist, ?_, ?_⟩
                    · rw [hlf, callGateway_fst_loadFailures, loopIter_loadFailures]
                    · intro c hc
                      rcases hpre c hc with hin | hok
                      · rw [callGateway_fst_calls, loopIter_calls] at hin
                        rcases List.mem_append.mp hin with h' | hone
                        · exact Or.inl h'
                        · simp only [List.mem_singleton] at hone
                          subst hone
                          exact Or.inr ⟨resp2, hg⟩
                      · exact Or.inr hok
                  · refine Or.inr ⟨f, ?_, herr, hhist, hca, hex, ?_⟩
                    · rw [hlf, callGateway_fst_loadFailures, loopIter_loadFailures]
                    · intro c hc
                      rcases hmem c hc with hin | hok
                      · rw [callGateway_fst_calls, loopIter_calls] at hin
                        rcases List.mem_append.mp hin with h' | hone
                        · exact Or.inl h'
                        · simp only [List.mem_singleton] at hone
                          subst hone
                          exact Or.inr ⟨resp2, hg⟩
                      · exact Or.inr hok

/-- If any recorded gateway call of a `process_message` run raised,
then that call is the last one made (no retry, no later call), the run
returned status `error` with the fixed message and the raised text
appended, and the conversation is exactly the snapshot taken at that
call. -/
theorem processMessage_fault (llm : LLMStub) (loads : JsonLoads)
    (reg : FunctionRegistry) (payment : PaymentProvider)
    (conv0 : ConversationManager) (clock0 : Nat) (user_message : String)
    (c : GatewayCall) (e : String)
    (hout : c.outcome = Except.error e)
    (hc : c ∈ (processMessage llm loads reg payment conv0 clock0 user_message).calls) :
    (processMessage llm loads reg payment conv0 clock0 user_message).result.status =
      "error" ∧
    (processMessage llm loads reg payment conv0 clock0 user_message).result.response =
      errorResponseBase ++ e ∧
    (processMessage llm loads reg payment conv0 clock0 user_message).conv.history =
      c.historyAt ∧
    (processMessage llm loads reg payment conv0 clock0 user_message).calls.getLast? =
      some c := by
  revert hc
  simp only [processMessage]
  split
  · rename_i e0 heq0
    intro hc
    replace hc : c ∈ (callGateway llm
        ⟨conv0.add_message "user" user_message none clock0, clock0 + 1,
         ["[SANDBOX] Processing request with PayPal REST API (sandbox mode only)"],
         [], [], []⟩ (some reg.get_all_functions)).1.calls := hc
    rw [callGateway_fst_calls] at hc
    simp only [List.nil_append, List.mem_singleton] at hc
    subst hc
    have hout' : (callGateway llm
        ⟨conv0.add_message "user" user_message none clock0, clock0 + 1,
         ["[SANDBOX] Processing request with PayPal REST API (sandbox mode only)"],
         [], [], []⟩ (some reg.get_all_functions)).2 = Except.error e := hout
    rw [heq0] at hout'
    obtain rfl : e0 = e := by injection hout'
    exact ⟨rfl, rfl, rfl, rfl⟩
  · rename_i resp0 heq0
    have hok1 : ∀ c2 ∈ (callGateway llm
        ⟨conv0.add_message "user" user_message none clock0, clock0 + 1,
         ["[SANDBOX] Processing request with PayPal REST API (sandbox mode only)"],
         [], [], []⟩ (some reg.get_all_functions)).1.calls,
        ∃ r, c2.outcome = Except.ok r := by
      intro c2 hc2
      rw [callGateway_fst_calls] at hc2
      simp only [List.nil_append, List.mem_singleton] at hc2
      subst hc2
      exact ⟨resp0, heq0⟩
    split
    · rename_i st1 e0 heq1
      intro hc
      rcases runLoop_error_inv llm loads reg payment reg.get_all_functions maxTurns
          _ resp0 st1 e0 heq1 with
        ⟨pre, lastC, hcalls, houtL, hhist, hlf, hpre⟩ |
        ⟨f, hlf, herr, hhist, hca, hex, hmem⟩
      · rw [show (exceptionOutcome st1 e0).calls = st1.calls from rfl, hcalls] at hc
        rcases List.mem_append.mp hc with hpre' | hone
        · rcases hpre c hpre' with hin | ⟨r, hr⟩
          · obtain ⟨r, hr⟩ := hok1 c hin
            rw [hout] at hr
            exact absurd hr (by simp)
          · rw [hout] at hr
            exact absurd hr (by simp)
        · simp only [List.mem_singleton] at hone
          subst hone
          rw [hout] at houtL
          obtain rfl : e = e0 := by injection houtL
          refine ⟨rfl, rfl, hhist, ?_⟩
          show st1.calls.getLast? = some c
          rw [hcalls]
          exact List.getLast?_concat pre
      · rcases hmem c hc with hin | ⟨r, hr⟩
        · obtain ⟨r, hr⟩ := hok1 c hin
          rw [hout] at hr
          exact absurd hr (by simp)
        · rw [hout] at hr
          exact absurd hr (by simp)
    · rename_i st1 fuelLeft resp heq1
      obtain ⟨hlf1, hcallsOk⟩ := runLoop_ok_inv llm loads reg payment
        reg.get_all_functions maxTurns _ resp0 st1 (fuelLeft, resp) heq1
      have hok2 : ∀ c2 ∈ st1.calls, ∃ r, c2.outcome = Except.ok r := by
        intro c2 hc2
        rcases hcallsOk c2 hc2 with hin | hok
        · exact hok1 c2 hin
        · exact hok
      split
      · intro hc
        obtain ⟨r, hr⟩ := hok2 c hc
        rw [hout] at hr
        exact absurd hr (by simp)
      · split
        · split
          · rename_i e0 heq2
            intro hc
            replace hc : c ∈ (callGateway llm
                { conv := st1.conv, clock := st1.clock,
                  userLogs := st1.userLogs ++ ["[SANDBOX] Maximum PayPal API calls reached"],
                  calls := st1.calls, execs := st1.execs,
                  loadFailures := st1.loadFailures } none).1.calls := hc
            rw [callGateway_fst_calls] at hc
            rcases List.mem_append.mp hc with hin | hone
            · obtain ⟨r, hr⟩ := hok2 c hin
              rw [hout] at hr
              exact absurd hr (by simp)
            · simp only [List.mem_singleton] at hone
              subst hone
              have hout' : (callGateway llm
                  { conv := st1.conv, clock := st1.clock,
                    userLogs := st1.userLogs ++ ["[SANDBOX] Maximum PayPal API calls reached"],
                    calls := st1.calls, execs := st1.execs,
                    loadFailures := st1.loadFailures } none).2 = Except.error e := hout
              rw [heq2] at hout'
              obtain rfl : e0 = e := by injection hout'
              refine ⟨rfl, rfl, rfl, ?_⟩
              show ((callGateway llm
                  { conv := st1.conv, clock := st1.clock,
                    userLogs := st1.userLogs ++ ["[SANDBOX] Maximum PayPal API calls reached"],
                    calls := st1.calls, execs := st1.execs,
                    loadFailures := st1.loadFailures } none).1.calls).getLast? = _
              rw [callGateway_fst_calls]
              exact List.getLast?_concat _
          · rename_i fin heq2
            intro hc
            replace hc : c ∈ (callGateway llm
                { conv := st1.conv, clock := st1.clock,
                  userLogs := st1.userLogs ++ ["[SANDBOX] Maximum PayPal API calls reached"],
                  calls := st1.calls, execs := st1.execs,
                  loadFailures := st1.loadFailures } none).1.calls := hc
            rw [callGateway_fst_calls] at hc
            rcases List.mem_append.mp hc with hin | hone
            · obtain ⟨r, hr⟩ := hok2 c hin
              rw [hout] at hr
              exact absurd hr (by simp)
            · simp only [List.mem_singleton] at hone
              subst hone
              have hout' : (callGateway llm
                  { conv := st1.conv, clock := st1.clock,
                    userLogs := st1.userLogs ++ ["[SANDBOX] Maximum PayPal API calls reached"],
                    calls := st1.calls, execs := st1.execs,
                    loadFailures := st1.loadFailures } none).2 = Except.error e := hout
              rw [heq2] at hout'
              exact absurd hout' (by simp)
        · intro hc
          obtain ⟨r, hr⟩ := hok2 c hc
          rw [hout] at hr
          exact absurd hr (by simp)

/-- Claim C3, counterexample: the response of a faulted run is the
fixed message with the raw exception text (`boom`) appended, so the
response is not free of raw exception text as the specification's
safety notion requires; and when the fault strikes after eviction
(bound 1), the conversation left at the fault holds only a function
turn — the triggering user turn is no longer recorded. -/
theorem C3_counterexample :
    runRaiseFirst.result.response = errorResponseBase ++ "boom" ∧
    runRaiseLate.result.status = "error" ∧
    runRaiseLate.conv.history.map Turn.role = ["function"] :=
  ⟨rfl, rfl, rfl⟩

/-- Claim C3 (amended: the `response_text` is the fixed error message
with the raw fault detail appended, and the triggering user turn
remains recorded only insofar as it was still in the history at the
fault): whenever a gateway call of the run raised, the run returned
status `error` with that response, made no retry (the faulting call is
the last of the run), and left the conversation exactly as it was at
the fault — in particular every turn recorded at the fault, the user
turn included when not yet evicted, is still recorded. -/
theorem C3_gateway_fault (llm : LLMStub) (loads : JsonLoads)
    (reg : FunctionRegistry) (payment : PaymentProvider)
    (conv0 : ConversationManager) (clock0 : Nat) (user_message : String)
    (c : GatewayCall) (e : String)
    (hout : c.outcome = Except.error e)
    (hc : c ∈ (processMessage llm loads reg payment conv0 clock0 user_message).calls) :
    (processMessage llm loads reg payment conv0 clock0 user_message).result.status =
      "error" ∧
    (processMessage llm loads reg payment conv0 clock0 user_message).result.response =
      errorResponseBase ++ e ∧
    (processMessage llm loads reg payment conv0 clock0 user_message).conv.history =
      c.historyAt ∧
    (processMessage llm loads reg payment conv0 clock0 user_message).calls.getLast? =
      some c ∧
    (∀ t ∈ c.historyAt,
      t ∈ (processMessage llm loads reg payment conv0 clock0 user_message).conv.history) := by
  have h := processMessage_fault llm loads reg payment conv0 clock0 user_message c e hout hc
  refine ⟨h.1, h.2.1, h.2.2.1, h.2.2.2, ?_⟩
  intro t ht
  rw [h.2.2.1]
  exact ht

/-- Claim C3 witness: the amended statement at a stub that raises
`boom` on the first call. -/
theorem C3_gateway_fault_witness :
    runRaiseFirst.result.status = "error" ∧
    runRaiseFirst.result.response = errorResponseBase ++ "boom" ∧
    runRaiseFirst.conv.history = [⟨"user", "hi", 0, none, none⟩] ∧
    runRaiseFirst.calls.getLast? =
      some ⟨[⟨"user", "hi", none⟩], some [], [⟨"user", "hi", 0, none, none⟩],
            Except.error "boom"⟩ := by
  have h := C3_gateway_fault stubRaise loadsEmptyObj emptyReg payment0 {} 0 "hi"
    ⟨[⟨"user", "hi", none⟩], some [], [⟨"user", "hi", 0, none, none⟩],
     Except.error "boom"⟩ "boom" rfl (List.Mem.head _)
  exact ⟨h.1, h.2.1, h.2.2.1, h.2.2.2.1⟩

/-- Claim C4, counterexample: when the model's raw tool arguments fail
to deserialise (`json.loads` raises, modelled by `loadsFailing`), the
run aborts with status `error`; no tool-result turn is recorded (the
history holds only the user turn), no tool is executed, and nothing is
fed back to the model (only the one initial gateway call was made) —
the failure is not converted into a Tool Result. -/
theorem C4_counterexample :
    runBadArgs.result.status = "error" ∧
    runBadArgs.calls.length = 1 ∧
    runBadArgs.execs = [] ∧
    runBadArgs.conv.history.map Turn.role = ["user"] :=
  ⟨rfl, rfl, rfl, rfl⟩

/-- Claim C4 (amended: a deserialisation failure aborts the request):
whenever the raw arguments of a requested tool call fail to
deserialise, `process_message` stops there — it returns status `error`
(through the outer exception handler) with the deserialisation message
appended to the fixed text, records no assistant or tool turn for that
request (the history is exactly the snapshot at the failure), executes
no tool for it, and makes no further gateway call; the failure is never
converted into a Tool Result fed back to the model. -/
theorem C4_load_failure_aborts (llm : LLMStub) (loads : JsonLoads)
    (reg : FunctionRegistry) (payment : PaymentProvider)
    (conv0 : ConversationManager) (clock0 : Nat) (user_message : String)
    (f : LoadFailure)
    (h : (processMessage llm loads reg payment conv0 clock0 user_message).loadFailures = [f]) :
    (processMessage llm loads reg payment conv0 clock0 user_message).result.status =
      "error" ∧
    (processMessage llm loads reg payment conv0 clock0 user_message).result.response =
      errorResponseBase ++ f.errMsg ∧
    (processMessage llm loads reg payment conv0 clock0 user_message).conv.history =
      f.historyAt ∧
    (processMessage llm loads reg payment conv0 clock0 user_message).calls.length =
      f.callsAt ∧
    (processMessage llm loads reg payment conv0 clock0 user_message).execs.length =
      f.execsAt := by
  revert h
  simp only [processMessage]
  split
  · rename_i e0 heq0
    intro h
    replace h : ([] : List LoadFailure) = [f] := h
    exact absurd h (by simp)
  · rename_i resp0 heq0
    split
    · rename_i st1 e0 heq1
      intro h
      replace h : st1.loadFailures = [f] := h
      rcases runLoop_error_inv llm loads reg payment reg.get_all_functions maxTurns
          _ resp0 st1 e0 heq1 with
        ⟨pre, lastC, hcalls, houtL, hhist, hlf, hpre⟩ |
        ⟨f2, hlf, herr, hhist, hca, hex, hmem⟩
      · rw [hlf] at h
        replace h : ([] : List LoadFailure) = [f] := h
        exact absurd h (by simp)
      · rw [hlf] at h
        replace h : ([] : List LoadFailure) ++ [f2] = [f] := h
        simp only [List.nil_append, List.cons.injEq, and_true] at h
        subst h
        subst herr
        exact ⟨rfl, rfl, hhist, hca, hex⟩
    · rename_i st1 fuelLeft resp heq1
      have hlf1 := (runLoop_ok_inv llm loads reg payment
        reg.get_all_functions maxTurns _ resp0 st1 (fuelLeft, resp) heq1).1
      split
      · intro h
        replace h : st1.loadFailures = [f] := h
        rw [hlf1] at h
        replace h : ([] : List LoadFailure) = [f] := h
        exact absurd h (by simp)
      · split
        · split
          · rename_i e0 heq2
            intro h
            replace h : st1.loadFailures = [f] := h
            rw [hlf1] at h
            replace h : ([] : List LoadFailure) = [f] := h
            exact absurd h (by simp)
          · rename_i fin heq2
            intro h
            replace h : st1.loadFailures = [f] := h
            rw [hlf1] at h
            replace h : ([] : List LoadFailure) = [f] := h
            exact absurd h (by simp)
        · intro h
          replace h : st1.loadFailures = [f] := h
          rw [hlf1] at h
          replace h : ([] : List LoadFailure) = [f] := h
          exact absurd h (by simp)

/-- Claim C4 witness: the amended statement at the stub whose raw
arguments `x` fail to deserialise on the first requested tool call. -/
theorem C4_load_failure_aborts_witness :
    runBadArgs.result.status = "error" ∧
    runBadArgs.result.response = errorResponseBase ++ "Expecting value: x" ∧
    runBadArgs.conv.history = [⟨"user", "hi", 0, none, none⟩] ∧
    runBadArgs.calls.length = 1 ∧
    runBadArgs.execs.length = 0 := by
  have h := C4_load_failure_aborts stubAlwaysFc loadsFailing emptyReg payment0 {} 0 "hi"
    ⟨"t", "x", "Expecting value: x", [⟨"user", "hi", 0, none, none⟩], 1, 0⟩ rfl
  exact ⟨h.1, h.2.1, h.2.2.1, h.2.2.2.1, h.2.2.2.2⟩

/-- Claim C8, counterexample: the outer exception handler interpolates
the raised exception's text into the user-visible response, so raw
exception detail does reach the user instead of staying in the logs. -/
theorem C8_counterexample :
    runRaiseDetail.result.response =
      errorResponseBase ++ "Connection refused by internal host 10.0.0.7" := rfl

/-- Claim C8 (amended: the status set holds, but raw exception text is
not withheld): every result of `process_message` carries a status among
`success`, `warning` and `error` together with a `response_text`, and
whenever a gateway call raised, the returned response is the fixed
error message with the raw exception text appended — exception detail
is shown to the user, not only logged. -/
theorem C8_status_partition (llm : LLMStub) (loads : JsonLoads)
    (reg : FunctionRegistry) (payment : PaymentProvider)
    (conv0 : ConversationManager) (clock0 : Nat) (user_message : String) :
    ((processMessage llm loads reg payment conv0 clock0 user_message).result.status =
        "success" ∨
     (processMessage llm loads reg payment conv0 clock0 user_message).result.status =
        "warning" ∨
     (processMessage llm loads reg payment conv0 clock0 user_message).result.status =
        "error") ∧
    (∀ c e, c ∈ (processMessage llm loads reg payment conv0 clock0 user_message).calls →
      c.outcome = Except.error e →
      (processMessage llm loads reg payment conv0 clock0 user_message).result.response =
        errorResponseBase ++ e) := by
  constructor
  · simp only [processMessage]
    split
    · right; right; rfl
    · split
      · right; right; rfl
      · split
        · left; rfl
        · split
          · split
            · right; right; rfl
            · right; left; rfl
          · right; right; rfl
  · intro c e hc hout
    exact (processMessage_fault llm loads reg payment conv0 clock0 user_message
      c e hout hc).2.1

/-- Claim C8 witness: the amended statement at a stub that raises with
a distinctive internal detail, discharging the inner hypotheses at the
concrete faulting call. -/
theorem C8_status_partition_witness :
    (runRaiseDetail.result.status = "success" ∨
      runRaiseDetail.result.status = "warning" ∨
      runRaiseDetail.result.status = "error") ∧
    runRaiseDetail.result.response =
      errorResponseBase ++ "Connection refused by internal host 10.0.0.7" :=
  ⟨(C8_status_partition stubRaiseDetail loadsEmptyObj emptyReg payment0 {} 0 "hi").1,
   (C8_status_partition stubRaiseDetail loadsEmptyObj emptyReg payment0 {} 0 "hi").2
     ⟨[⟨"user", "hi", none⟩], some [], [⟨"user", "hi", 0, none, none⟩],
      Except.error "Connection refused by internal host 10.0.0.7"⟩
     "Connection refused by internal host 10.0.0.7" (List.Mem.head _) rfl⟩

/-! Lemmas for the tool-turn pairing invariant. -/

/-- The pair chain restricted to the tail. -/
theorem chainB_tail (a : Turn) (l : List Turn) (h : chainB (a :: l) = true) :
    chainB l = true := by
  cases l with
  | nil => rfl
  | cons b r =>
      simp only [chainB, Bool.and_eq_true] at h
      exact h.2

/-- The pair chain survives dropping a prefix. -/
theorem chainB_drop (n : Nat) : ∀ (l : List Turn), chainB l = true →
    chainB (l.drop n) = true := by
  induction n with
  | zero => intro l h; simpa using h
  | succ n ih =>
      intro l h
      cases l with
      | nil => simpa using h
      | cons a r =>
          simp only [List.drop_succ_cons]
          exact ih r (chainB_tail a r h)

/-- `all` survives dropping a prefix. -/
theorem all_drop (p : Turn → Bool) (n : Nat) (l : List Turn)
    (h : l.all p = true) : (l.drop n).all p = true := by
  rw [List.all_eq_true] at *
  intro x hx
  exact h x (List.drop_subset n l hx)

/-- Appending one turn keeps the pair chain when the turn pairs with
the current last element. -/
theorem chainB_append_one : ∀ (l : List Turn) (t : Turn), chainB l = true →
    (∀ a, l.getLast? = some a → pairOKB a t = true) → chainB (l ++ [t]) = true := by
  intro l
  induction l with
  | nil => intro t _ _; rfl
  | cons a r ih =>
      intro t h hlast
      cases r with
      | nil =>
          have hp := hlast a rfl
          simp only [List.cons_append, List.nil_append, chainB, Bool.and_eq_true]
          exact ⟨hp, trivial⟩
      | cons b r2 =>
          have h' : chainB (b :: r2) = true := chainB_tail a _ h
          have hlast' : ∀ x, (b :: r2).getLast? = some x → pairOKB x t = true := by
            intro x hx
            apply hlast
            rw [List.getLast?_cons_cons]
            exact hx
          have hrec := ih t h' hlast'
          simp only [chainB, Bool.and_eq_true] at h
          simp only [List.cons_append, chainB, Bool.and_eq_true]
          refine ⟨h.1, ?_⟩
          simpa [List.cons_append] using hrec

/-- Append-then-truncate preserves the pairing invariant when the new
turn is named (if a function turn) and pairs with the last element. -/
theorem good_append (k : Nat) (h : List Turn) (t : Turn)
    (hg : goodHistoryB h = true) (hn : namedFnB t = true)
    (hp : ∀ a, h.getLast? = some a → pairOKB a t = true) :
    goodHistoryB (truncateHistory k (h ++ [t])) = true := by
  unfold goodHistoryB at hg
  rw [Bool.and_eq_true] at hg
  obtain ⟨ha, hch⟩ := hg
  have ha2 : (h ++ [t]).all namedFnB = true := by
    rw [List.all_append]
    simp [ha, hn]
  have hch2 : chainB (h ++ [t]) = true := chainB_append_one h t hch hp
  unfold truncateHistory pyLastSlice goodHistoryB
  split
  · split
    · rw [Bool.and_eq_true]; exact ⟨ha2, hch2⟩
    · rw [Bool.and_eq_true]
      exact ⟨all_drop _ _ _ ha2, chainB_drop _ _ hch2⟩
  · rw [Bool.and_eq_true]; exact ⟨ha2, hch2⟩

/-- `add_message` with a non-function role preserves the invariant. -/
theorem good_add_message_nonfn (c : ConversationManager) (role content : String)
    (fn : Option String) (ts : Nat) (hrole : (role == "function") = false)
    (hg : goodHistoryB c.history = true) :
    goodHistoryB (c.add_message role content fn ts).history = true := by
  unfold ConversationManager.add_message
  apply good_append _ _ _ hg
  · unfold namedFnB
    simp [hrole]
  · intro a _
    unfold pairOKB
    simp [hrole]

/-- `add_function_call` with role `assistant` preserves the invariant. -/
theorem good_add_function_call (c : ConversationManager) (content : String)
    (fc : FunctionCallData) (ts : Nat) (hg : goodHistoryB c.history = true) :
    goodHistoryB (c.add_function_call "assistant" content fc ts).history = true := by
  unfold ConversationManager.add_function_call
  apply good_append _ _ _ hg
  · unfold namedFnB
    simp
  · intro a _
    unfold pairOKB
    simp

/-- Appending a tool-result turn named after the pending request of the
assistant turn just before it preserves the invariant. -/
theorem good_add_fn_turn (c : ConversationManager) (content : String)
    (fc : FunctionCallData) (ts : Nat) (a : Turn)
    (hg : goodHistoryB c.history = true)
    (hlast : c.history.getLast? = some a)
    (ha1 : a.role = "assistant") (ha2 : a.functionCall = some fc) :
    goodHistoryB (c.add_message "function" content (some fc.name) ts).history = true := by
  unfold ConversationManager.add_message
  apply good_append _ _ _ hg
  · unfold namedFnB
    simp
  · intro b hb
    rw [hlast] at hb
    obtain rfl : b = a := by injection hb with hb2; exact hb2.symm
    unfold pairOKB
    simp [ha1, ha2]

/-- The tool-execution step preserves the invariant: its function turn
is appended right after the matching assistant tool-request turn. -/
theorem good_runTool (reg : FunctionRegistry) (payment : PaymentProvider)
    (st : LoopState) (a0 : Json) (fc : FunctionCallData) (tA : Turn)
    (hg : goodHistoryB st.conv.history = true)
    (hlast : st.conv.history.getLast? = some tA)
    (ha1 : tA.role = "assistant") (ha2 : tA.functionCall = some fc) :
    goodHistoryB (runTool reg payment st fc.name a0).conv.history = true := by
  unfold runTool
  split
  · exact good_add_fn_turn _ _ fc _ tA hg hlast ha1 ha2
  · exact good_add_fn_turn _ _ fc _ tA hg hlast ha1 ha2

/-- A full loop iteration preserves the invariant. -/
theorem good_loopIter (reg : FunctionRegistry) (payment : PaymentProvider)
    (st : LoopState) (resp : LLMResponse) (fc : FunctionCallData) (args : Json)
    (hg : goodHistoryB st.conv.history = true) :
    goodHistoryB (loopIter reg payment st resp fc args).conv.history = true := by
  unfold loopIter
  apply good_runTool _ _ _ _ fc
    (⟨"assistant", resp.content.getD "", st.clock, none, some fc⟩ : Turn)
  · exact good_add_function_call _ _ _ _ hg
  · exact add_function_call_getLast _ _ _ _ _
  · rfl
  · rfl

/-- The whole loop preserves the invariant, whatever the stubs do. -/
theorem good_runLoop (llm : LLMStub) (loads : JsonLoads) (reg : FunctionRegistry)
    (payment : PaymentProvider) (available : List Json) :
    ∀ (fuel : Nat) (st : LoopState) (resp : LLMResponse),
      goodHistoryB st.conv.history = true →
      goodHistoryB (runLoop llm loads reg payment available fuel st resp).1.conv.history =
        true := by
  intro fuel
  induction fuel with
  | zero => intro st resp hg; exact hg
  | succ fuel ih =>
      intro st resp hg
      cases hfc : resp.functionCall with
      | none =>
          simp only [runLoop, hfc]
          exact hg
      | some fc =>
          cases hv : loads fc.arguments with
          | error e =>
              simp only [runLoop, hfc, hv]
              exact hg
          | ok args =>
              have hg1 := good_loopIter reg payment st resp fc args hg
              cases hgw : (callGateway llm (loopIter reg payment st resp fc args)
                  (some available)).2 with
              | error e =>
                  simp only [runLoop, hfc, hv, hgw]
                  exact hg1
              | ok resp2 =>
                  simp only [runLoop, hfc, hv, hgw]
                  exact ih _ resp2 hg1

/-- One whole `process_message` run preserves the invariant. -/
theorem good_processMessage (llm : LLMStub) (loads : JsonLoads)
    (reg : FunctionRegistry) (payment : PaymentProvider)
    (conv0 : ConversationManager) (clock0 : Nat) (user_message : String)
    (hg : goodHistoryB conv0.history = true) :
    goodHistoryB
      (processMessage llm loads reg payment conv0 clock0 user_message).conv.history =
      true := by
  have hg1 : goodHistoryB (conv0.add_message "user" user_message none clock0).history =
      true :=
    good_add_message_nonfn conv0 "user" user_message none clock0 (by decide) hg
  simp only [processMessage]
  split
  · exact hg1
  · rename_i resp0 heq0
    have hg2 := good_runLoop llm loads reg payment reg.get_all_functions maxTurns
      (callGateway llm
        ⟨conv0.add_message "user" user_message none clock0, clock0 + 1,
         ["[SANDBOX] Processing request with PayPal REST API (sandbox mode only)"],
         [], [], []⟩ (some reg.get_all_functions)).1 resp0 hg1
    split
    · rename_i st1 e0 heq1
      rw [heq1] at hg2
      exact hg2
    · rename_i st1 fuelLeft resp heq1
      rw [heq1] at hg2
      split
      · exact good_add_message_nonfn _ "assistant" _ none _ (by decide) hg2
      · split
        · split
          · exact hg2
          · exact good_add_message_nonfn _ "assistant" _ none _ (by decide) hg2
        · exact hg2

/-- Claim C7, counterexample: a reachable store state (bound 2, one
tool call then a final answer) whose history starts with a function
turn — the pairing assistant turn was evicted, so the function turn
does not immediately follow an assistant turn as the claim requires. -/
theorem C7_counterexample :
    Reachable runEvicted.conv ∧
    runEvicted.conv.history.map Turn.role = ["function", "assistant"] ∧
    strictGoodB runEvicted.conv.history = false :=
  ⟨Reachable.step stubOneTool loadsEmptyObj emptyReg payment0 0 "hi" (Reachable.init 2),
   rfl, rfl⟩

/-- Claim C7 (amended: eviction may orphan the oldest retained turn):
in every reachable conversation-store state produced by the
orchestration loop, every tool-role turn has a non-null tool name, and
every tool-role turn other than the head of the (possibly truncated)
history immediately follows an assistant turn whose recorded tool
request names the same tool; the head may be an orphaned tool turn
whose pairing assistant turn was evicted by the history bound. -/
theorem C7_pairing_invariant (conv : ConversationManager) (h : Reachable conv) :
    goodHistoryB conv.history = true := by
  induction h with
  | init k => rfl
  | step llm loads reg payment clock0 user_message _ ih =>
      exact good_processMessage llm loads reg payment _ clock0 user_message ih
  | cleared _ _ => rfl

/-- Claim C7 witness: the amended invariant at the concrete reachable
state of the counterexample run (whose history is an orphaned function
turn followed by the final assistant turn). -/
theorem C7_pairing_invariant_witness :
    goodHistoryB runEvicted.conv.history = true :=
  C7_pairing_invariant runEvicted.conv
    (Reachable.step stubOneTool loadsEmptyObj emptyReg payment0 0 "hi" (Reachable.init 2))

end PayPalAgent
